import Mathlib

set_option maxRecDepth 10000

deriving instance DecidableEq for Except

/-!
Shallow embedding of `services/caption_video_one.py` (the caption-to-subtitle
translation and styling engine plus its orchestration pipeline), with theorems
settling the specification claims.

Python strings are modelled as `List Char` so every operation is a structural
recursion the kernel can evaluate.  Python floats are modelled as exact
rationals (`ℚ`); claims about floating tolerance are settled with the exact
arithmetic, which stays within every tolerance the spec allows.  Fallible
Python code (raised exceptions) is modelled with `Except PyErr`.
-/

namespace CaptionVideoOne

/-- Python strings, modelled as character lists. -/
abbrev Str := List Char

/-- Coerce a Lean string literal to the model. -/
def S (s : String) : Str := s.data

/-- Exceptions that the embedded code can raise. -/
inductive PyErr where
  /-- Python `ZeroDivisionError` (division by a zero word count). -/
  | zeroDivisionError : PyErr
  /-- Python `ValueError` (e.g. `float()` applied to a non-numeric string). -/
  | valueError : PyErr
  /-- Python `IndexError` (e.g. `timecode[1]` when the separator is absent). -/
  | indexError : PyErr
  /-- A failed download / HTTP fetch (`download_file`, `requests`). -/
  | fetchFailure (msg : Str) : PyErr
  /-- `ffmpeg.Error`, carrying the diagnostic text derived from its stderr. -/
  | ffmpegError (msg : Str) : PyErr
  /-- A failed artifact upload (`upload_to_gcs`). -/
  | uploadFailure (msg : Str) : PyErr
  deriving DecidableEq, Repr

/-! ## Python string primitives -/

/-- Python `str.split(sep)` for a single-character separator. -/
def splitOnChar (d : Char) (s : Str) : List Str := s.splitOn d

/-- Python `str.split(sep)` for an arbitrary non-empty separator (fuel-based
so that the kernel can evaluate it on concrete input). -/
def pySplitGo (sep : Str) : Nat → Str → Str → List Str
  | 0, acc, rest => [acc.reverse ++ rest]
  | _ + 1, acc, [] => [acc.reverse]
  | fuel + 1, acc, c :: rest =>
    if sep ≠ [] ∧ sep.isPrefixOf (c :: rest) then
      acc.reverse :: pySplitGo sep fuel [] ((c :: rest).drop sep.length)
    else
      pySplitGo sep fuel (c :: acc) rest

/-- Python `str.split(sep)`. -/
def pySplit (sep : Str) (s : Str) : List Str := pySplitGo sep s.length [] s

/-- Python `str.strip()`. -/
def pyStrip (s : Str) : Str :=
  ((s.dropWhile Char.isWhitespace).reverse.dropWhile Char.isWhitespace).reverse

/-- Python `str.split()` (no argument): split on whitespace runs, dropping
empty chunks. -/
def pySplitWs (s : Str) : List Str :=
  (splitOnChar ' ' (s.map fun c => if c.isWhitespace then ' ' else c)).filter (· ≠ [])

/-- Python `str.replace(a, b)` for single characters (the code only replaces
`','` by `'.'`). -/
def pyReplaceChar (a b : Char) (s : Str) : Str :=
  s.map fun c => if c = a then b else c

/-- Python `str.startswith(p)`. -/
def pyStartsWith (s p : Str) : Bool := p.isPrefixOf s

/-- Python `sep.join(parts)`. -/
def pyJoin (sep : Str) (parts : List Str) : Str := List.intercalate sep parts

/-! ## Decimal digit rendering and reading -/

/-- Digit characters of a natural number, most significant first
(fuel-based so the kernel can evaluate it). -/
def natDigitsChars : Nat → Nat → Str
  | 0, _ => []
  | fuel + 1, n =>
    if n < 10 then [Nat.digitChar n]
    else natDigitsChars fuel (n / 10) ++ [Nat.digitChar (n % 10)]

/-- Python `str(n)` for a non-negative integer. -/
def natToChars (n : Nat) : Str := natDigitsChars (n + 1) n

/-- Python `str(i)` for an integer. -/
def intToChars (i : Int) : Str :=
  if i < 0 then '-' :: natToChars (-i).toNat else natToChars i.toNat

/-- Numeric value of a digit string (the usual left fold). -/
def digitsToNat (ds : Str) : Nat :=
  ds.foldl (fun a c => 10 * a + (c.toNat - 48)) 0

/-- Value of `float(t)` once stripped of whitespace and sign: an integer part,
then optionally `.` and a fractional part.  Models the decimal subset of
Python's `float` grammar (no exponents / `inf` / underscores, none of which
occur in timecode text). -/
def pyFloatVal (t : Str) : Except PyErr ℚ :=
  let ip := t.takeWhile Char.isDigit
  match t.dropWhile Char.isDigit with
  | [] => if ip = [] then .error .valueError else .ok (digitsToNat ip : ℚ)
  | c :: frac =>
    if c = '.' ∧ frac.all Char.isDigit ∧ ¬(ip = [] ∧ frac = []) then
      .ok ((digitsToNat ip : ℚ) + (digitsToNat frac : ℚ) / 10 ^ frac.length)
    else .error .valueError

/-- Python `float(s)` (decimal subset). -/
def pyFloat (s : Str) : Except PyErr ℚ :=
  match pyStrip s with
  | [] => .error .valueError
  | c :: t =>
    if c = '+' then pyFloatVal t
    else if c = '-' then (pyFloatVal t).map (fun v => -v)
    else pyFloatVal (c :: t)

/-! ## Python option values (the untyped `options` dictionary) -/

/-- A value held in the `options` dictionary / formatted with `str(...)`. -/
inductive PyVal where
  | str (s : Str) : PyVal
  | int (n : Int) : PyVal
  | bool (b : Bool) : PyVal
  | none : PyVal
  deriving DecidableEq, Repr

/-- Python `str(v)`. -/
def pyValStr : PyVal → Str
  | .str s => s
  | .int n => intToChars n
  | .bool b => if b then S "True" else S "False"
  | .none => S "None"

/-- Python truthiness of an option value. -/
def pyTruthy : PyVal → Bool
  | .str s => s ≠ []
  | .int n => n ≠ 0
  | .bool b => b
  | .none => false

/-- The `options` dictionary: an association list where a later binding
overwrites an earlier one, as in the dict comprehension of
`convert_array_to_collection`. -/
abbrev Options := List (Str × PyVal)

/-- `{item["option"]: item["value"] for item in options}` — the dictionary
built from the request's option array (later duplicates win on lookup). -/
def convert_array_to_collection (arr : List (Str × PyVal)) : Options := arr

/-- Python `dict.get(k, default)` under last-binding-wins semantics. -/
def pyGet (d : Options) (k : Str) (default : PyVal) : PyVal :=
  match d.reverse.find? (fun kv => kv.1 = k) with
  | some kv => kv.2
  | Option.none => default

/-! ## TimeCodeFormatter -/

/-- Two-digit zero-padded rendering (Python `:02d`, and each half of
`:05.2f`). -/
def pad2 (n : Nat) : Str := if n < 10 then '0' :: natToChars n else natToChars n

/-- The seconds field `{x % 60:05.2f}`: the value rounded to centiseconds.
`%.2f` rounding is modelled as round-half-up on the exact rational. -/
def centiOfSeconds (r : ℚ) : ℤ := ⌊100 * r + 1 / 2⌋

/-- Rendering of the `:05.2f` seconds field from its centisecond count. -/
def fix2 (c : Nat) : Str := pad2 (c / 100) ++ '.' :: pad2 (c % 100)

/-- `f"{int(x/3600)}:{int((x%3600)/60):02d}:{x%60:05.2f}"` — the timecode
rendering of lines 95–96 of the source, for a non-negative seconds value. -/
def formatTimecode (x : ℚ) : Str :=
  intToChars ⌊x / 3600⌋ ++
    ':' :: pad2 (⌊(x - 3600 * (⌊x / 3600⌋ : ℚ)) / 60⌋).toNat ++
    ':' :: fix2 (centiOfSeconds (x - 60 * (⌊x / 60⌋ : ℚ))).toNat

/-- `sum(float(x) * y for x, y in zip(components[::-1], [1, 60, 3600]))` —
the summation over reversed components zipped with the multipliers.  `zip`
truncates at the shorter list, and the generator raises the first `float`
failure in iteration order. -/
def sumTimecodeTerms : List (Str × ℚ) → Except PyErr ℚ
  | [] => .ok 0
  | (s, m) :: rest => do
    let v ← pyFloat s
    let r ← sumTimecodeTerms rest
    .ok (v * m + r)

/-- Timecode parsing from an already-split component list. -/
def parseTimecodeParts (ps : List Str) : Except PyErr ℚ :=
  sumTimecodeTerms (ps.reverse.zip [(1 : ℚ), 60, 3600])

/-- `sum(float(x) * y for x, y in zip(t.replace(',', '.').split(':')[::-1],
[1, 60, 3600]))` — timecode parsing as on lines 120–121 of the source. -/
def parseTimecode (s : Str) : Except PyErr ℚ :=
  parseTimecodeParts (splitOnChar ':' (pyReplaceChar ',' '.' s))

/-! ## StyleLineBuilder (`generate_style_line`, lines 55–81) -/

/-- The `style_options` dictionary of `generate_style_line`, in insertion
order. -/
def styleOptionsList (options : Options) : List (Str × PyVal) :=
  [ (S "Name", .str (S "Default")),
    (S "Fontname", pyGet options (S "font_name") (.str (S "Arial"))),
    (S "Fontsize", pyGet options (S "font_size") (.int 24)),
    (S "PrimaryColour", pyGet options (S "primary_color") (.str (S "&H00FFFFFF"))),
    (S "OutlineColour", pyGet options (S "outline_color") (.str (S "&H00000000"))),
    (S "BackColour", pyGet options (S "back_color") (.str (S "&H00000000"))),
    (S "Bold", pyGet options (S "bold") (.int 0)),
    (S "Italic", pyGet options (S "italic") (.int 0)),
    (S "Underline", pyGet options (S "underline") (.int 0)),
    (S "StrikeOut", pyGet options (S "strikeout") (.int 0)),
    (S "ScaleX", .int 100),
    (S "ScaleY", .int 100),
    (S "Spacing", .int 0),
    (S "Angle", .int 0),
    (S "BorderStyle", .int 1),
    (S "Outline", pyGet options (S "outline") (.int 1)),
    (S "Shadow", pyGet options (S "shadow") (.int 0)),
    (S "Alignment", pyGet options (S "alignment") (.int 2)),
    (S "MarginL", pyGet options (S "margin_l") (.int 10)),
    (S "MarginR", pyGet options (S "margin_r") (.int 10)),
    (S "MarginV", pyGet options (S "margin_v") (.int 10)),
    (S "Encoding", pyGet options (S "encoding") (.int 1)) ]

/-- `f"Style: {','.join(str(v) for v in style_options.values())}"`. -/
def generate_style_line (options : Options) : Str :=
  S "Style: " ++ pyJoin [','] ((styleOptionsList options).map (fun kv => pyValStr kv.2))

/-! ## WordHighlightExpander (`process_single_word_caption`, lines 83–105) -/

/-- The numeric window of word `i`: `word_start = start + i * word_duration`,
`word_end = word_start + word_duration` with
`word_duration = (end - start) / n` (lines 86–92). -/
def wordWindow (start_time end_time : ℚ) (n : Nat) (i : Nat) : ℚ × ℚ :=
  (start_time + i * ((end_time - start_time) / n),
   start_time + i * ((end_time - start_time) / n) + (end_time - start_time) / n)

/-- All `n` word windows of a cue, in word order. -/
def wordWindows (start_time end_time : ℚ) (n : Nat) : List (ℚ × ℚ) :=
  (List.range n).map (wordWindow start_time end_time n)

/-- The i-th word wrapped in the inline colour override and closed back to
the regular colour:
`"{\c&H" + highlight + "&}" + word + "{\c&H" + regular + "&}"`. -/
def highlightWrap (highlight_color regular_color word : Str) : Str :=
  S "\x7b\\c&H" ++ highlight_color ++ S "&\x7d" ++ word ++
    S "\x7b\\c&H" ++ regular_color ++ S "&\x7d"

/-- One rendered `Dialogue:` line (lines 94–103): both window ends formatted
as timecodes and the word list re-joined with the i-th word wrapped. -/
def dialogueLine (words : List Str) (start_time end_time : ℚ) (n : Nat)
    (highlight_color regular_color : Str) (i : Nat) (word : Str) : Str :=
  S "Dialogue: 0," ++ formatTimecode (wordWindow start_time end_time n i).1 ++
    ',' :: formatTimecode (wordWindow start_time end_time n i).2 ++
    S ",Default,,0,0,0,," ++
    pyJoin [' '] (words.set i (highlightWrap highlight_color regular_color word))

/-- `process_single_word_caption` (lines 83–105).  `caption_text.strip().split()`
yields the words; the division `total_duration / len(words)` raises
`ZeroDivisionError` when there are none; otherwise one dialogue line per word
is produced. -/
def process_single_word_caption (caption_text : Str) (start_time end_time : ℚ)
    (highlight_color regular_color : Str) : Except PyErr (List Str) :=
  let words := pySplitWs (pyStrip caption_text)
  if words = [] then .error .zeroDivisionError
  else .ok (words.mapIdx (fun i w =>
    dialogueLine words start_time end_time words.length highlight_color regular_color i w))

/-! ## CaptionParser and SRT→ASS conversion
(`convert_srt_to_one_word_ass`, lines 107–135) -/

/-- A parsed cue: start, end, text. -/
structure Cue where
  start : ℚ
  stop : ℚ
  text : Str
  deriving DecidableEq, Repr

/-- Cue extraction from one block's line list (lines 118–124): split line 1 on
`" --> "` (indexing into the result raises `IndexError` when the separator is
missing), parse both sides as timecodes, and join the remaining lines with a
single space. -/
def parseCueBlock (parts : List Str) : Except PyErr Cue :=
  match parts.drop 1 with
  | [] => .error .indexError
  | timecodeLine :: textLines =>
    match pySplit (S " --> ") timecodeLine with
    | [] => .error .indexError
    | [_] => .error .indexError
    | t0 :: t1 :: _ => do
      let start_time ← parseTimecode t0
      let end_time ← parseTimecode t1
      .ok ⟨start_time, end_time, pyJoin [' '] textLines⟩

/-- One iteration of the block loop (lines 115–133): a block with fewer than
3 lines is skipped, any other is parsed and appended. -/
def parseCueStep (acc : List Cue) (parts : List Str) : Except PyErr (List Cue) :=
  if 3 ≤ parts.length then do
    let c ← parseCueBlock parts
    pure (acc ++ [c])
  else pure acc

/-- The parsing skeleton of the block loop (lines 115–133): blocks with fewer
than 3 lines are skipped, the rest are parsed in order. -/
def parseCues (blocks : List (List Str)) : Except PyErr (List Cue) :=
  blocks.foldlM parseCueStep []

/-- The blank-line-separated blocks of a caption source, each split into its
lines: `srt_content.strip().split('\n\n')`, then `line.split('\n')`. -/
def srtBlocks (srt_content : Str) : List (List Str) :=
  (pySplit (S "\n\n") (pyStrip srt_content)).map (splitOnChar '\n')

/-- `convert_srt_to_one_word_ass` (lines 107–135): for each block with at
least 3 lines, parse the timecode line and expand the text word by word;
join all produced dialogue lines with newlines. -/
def convert_srt_to_one_word_ass (srt_content : Str) (options : Options) :
    Except PyErr Str := do
  let highlight_color := pyValStr (pyGet options (S "highlight_color") (.str (S "FFFFFF")))
  let regular_color := pyValStr (pyGet options (S "regular_color") (.str (S "AAAAAA")))
  let ass_lines ← (srtBlocks srt_content).foldlM
    (fun acc parts =>
      if 3 ≤ parts.length then do
        let c ← parseCueBlock parts
        let ls ← process_single_word_caption c.text c.start c.stop
          highlight_color regular_color
        pure (acc ++ ls)
      else pure acc)
    ([] : List Str)
  pure (pyJoin ['\n'] ass_lines)

/-! ## CaptioningPipeline (`process_captioning`, lines 137–272)

External collaborators (network fetches, the encoder, the artifact store, the
startup font table) are parameters of the embedding; the observable calls the
pipeline makes are collected in an action trace. -/

/-- Results of the external collaborators for one job, and the process-wide
font table (`FONT_PATHS`, keyed by font name). -/
structure Env where
  /-- `download_file(file_url, STORAGE_PATH)`: the local video path, or a
  raised error's message. -/
  downloadResult : Except Str Str
  /-- `requests.get(caption_srt)` + `raise_for_status()`: the response text,
  or a raised error's message. -/
  fetchResult : Except Str Str
  /-- The FFmpeg run: success, or `ffmpeg.Error` carrying its `stderr`
  (`Option.none` for a missing stream). -/
  encodeResult : Except (Option Str) Unit
  /-- `upload_to_gcs`: the artifact name, or a raised error's message. -/
  uploadResult : Except Str Str
  /-- `FONT_PATHS`: font name → font file path. -/
  fontPaths : List (Str × Str)

/-- Externally observable pipeline actions, in order of occurrence. -/
inductive Action where
  | download (url : Str) : Action
  | fetchCaption (url : Str) : Action
  | writeFile (path content : Str) : Action
  | warnFont (requested : PyVal) : Action
  | encode (filter : Str) : Action
  | upload (path : Str) : Action
  | removeFile (path : Str) : Action
  deriving DecidableEq, Repr

/-- `FONT_PATHS` lookup. -/
def fontLookup (fontPaths : List (Str × Str)) (name : Str) : Option Str :=
  (fontPaths.find? (fun kv => kv.1 = name)).map (fun kv => kv.2)

/-- Lines 204–210: look the requested font up in `FONT_PATHS`; on a miss fall
back to the `Arial` entry and warn.  Returns the selected path and whether
the warning was logged. -/
def select_font (fontPaths : List (Str × Str)) (font_name : PyVal) :
    Option Str × Bool :=
  match font_name with
  | .str s =>
    match fontLookup fontPaths s with
    | some p => (some p, false)
    | Option.none => (fontLookup fontPaths (S "Arial"), true)
  | _ => (fontLookup fontPaths (S "Arial"), true)

/-- The `style_options` dictionary of the `force_style` branch
(lines 217–240), in insertion order.  `FontName` is the requested font name. -/
def forceStyleOptionsList (options : Options) (font_name : PyVal) :
    List (Str × PyVal) :=
  [ (S "FontName", font_name),
    (S "FontSize", pyGet options (S "font_size") (.int 24)),
    (S "PrimaryColour", pyGet options (S "primary_color") (.str (S "&H00FFFFFF"))),
    (S "SecondaryColour", pyGet options (S "secondary_color") (.str (S "&H00000000"))),
    (S "OutlineColour", pyGet options (S "outline_color") (.str (S "&H00000000"))),
    (S "BackColour", pyGet options (S "back_color") (.str (S "&H00000000"))),
    (S "Bold", pyGet options (S "bold") (.int 0)),
    (S "Italic", pyGet options (S "italic") (.int 0)),
    (S "Underline", pyGet options (S "underline") (.int 0)),
    (S "StrikeOut", pyGet options (S "strikeout") (.int 0)),
    (S "Alignment", pyGet options (S "alignment") (.int 2)),
    (S "MarginV", pyGet options (S "margin_v") (.int 10)),
    (S "MarginL", pyGet options (S "margin_l") (.int 10)),
    (S "MarginR", pyGet options (S "margin_r") (.int 10)),
    (S "Outline", pyGet options (S "outline") (.int 1)),
    (S "Shadow", pyGet options (S "shadow") (.int 0)),
    (S "Blur", pyGet options (S "blur") (.int 0)),
    (S "BorderStyle", pyGet options (S "border_style") (.int 1)),
    (S "Encoding", pyGet options (S "encoding") (.int 1)),
    (S "Spacing", pyGet options (S "spacing") (.int 0)),
    (S "Angle", pyGet options (S "angle") (.int 0)),
    (S "UpperCase", pyGet options (S "uppercase") (.int 0)) ]

/-- Lines 212–244: the subtitle filter argument.  The style-capable branch
references the file path in quotes; the plain branch appends a `force_style`
clause of `k=v` entries, dropping entries whose value `is None`, joined with
commas inside single quotes. -/
def build_subtitle_filter (subtitle_extension srt_path : Str)
    (options : Options) (font_name : PyVal) : Str :=
  if subtitle_extension = S ".ass" then
    S "subtitles='" ++ srt_path ++ S "'"
  else
    S "subtitles=" ++ srt_path ++ S ":force_style='" ++
      pyJoin [','] (((forceStyleOptionsList options font_name).filter
          (fun kv => kv.2 ≠ PyVal.none)).map
        (fun kv => kv.1 ++ '=' :: pyValStr kv.2)) ++
      S "'"

/-- The ASS header (lines 159–168), built when the effective caption type is
`ass`. -/
def assHeader (options : Options) : Str :=
  S "\n[Script Info]\nTitle: Highlight Current Word\nScriptType: v4.00+\n[V4+ Styles]\nFormat: Name, Fontname, Fontsize, PrimaryColour, OutlineColour, BackColour, Bold, Italic, Underline, StrikeOut, ScaleX, ScaleY, Spacing, Angle, BorderStyle, Outline, Shadow, Alignment, MarginL, MarginR, MarginV, Encoding\n" ++
    generate_style_line options ++
    S "\n[Events]\nFormat: Layer, Start, End, Style, Name, MarginL, MarginR, MarginV, Effect, Text\n"

/-- Lines 171–199: materializing the caption into the subtitle scratch file.
The source is remote exactly when it starts with `"https"`; otherwise the
inline text is used without any fetch. -/
def materialize_caption (env : Env) (caption_srt : Str) (options : Options)
    (one_word_mode : Bool) (caption_type caption_style srt_path : Str) :
    Except PyErr Unit × List Action :=
  if pyStartsWith caption_srt (S "https") then
    match env.fetchResult with
    | .error m => (.error (.fetchFailure m), [.fetchCaption caption_srt])
    | .ok text =>
      if one_word_mode then
        match convert_srt_to_one_word_ass text options with
        | .error e => (.error e, [.fetchCaption caption_srt])
        | .ok body =>
          (.ok (), [.fetchCaption caption_srt,
                    .writeFile srt_path (caption_style ++ body)])
      else if caption_type = S "srt" ∨ caption_type = S "vtt" then
        (.ok (), [.fetchCaption caption_srt, .writeFile srt_path text])
      else
        (.ok (), [.fetchCaption caption_srt,
                  .writeFile srt_path (caption_style ++ text)])
  else
    if one_word_mode then
      match convert_srt_to_one_word_ass caption_srt options with
      | .error e => (.error e, [])
      | .ok body => (.ok (), [.writeFile srt_path (caption_style ++ body)])
    else
      (.ok (), [.writeFile srt_path (caption_style ++ caption_srt)])

/-- The diagnostic text captured from a failed encoder run (lines 254–258):
the decoded `stderr` when present and non-empty, else
`'Unknown FFmpeg error'`. -/
def decodeStderr (stderr : Option Str) : Str :=
  match stderr with
  | some s => if s = [] then S "Unknown FFmpeg error" else s
  | Option.none => S "Unknown FFmpeg error"

/-- `one_word_mode = options.get('one_word_mode', False)` (line 150),
as a truth value. -/
def oneWordMode (options : Options) : Bool :=
  pyTruthy (pyGet options (S "one_word_mode") (.bool false))

/-- The effective caption type after the one-word-mode override
(lines 151–152). -/
def effCaptionType (options : Options) (caption_type : Str) : Str :=
  if oneWordMode options ∧ caption_type ≠ S "ass" then S "ass" else caption_type

/-- The effective subtitle extension (lines 144, 153). -/
def effExtension (options : Options) (caption_type : Str) : Str :=
  if oneWordMode options ∧ caption_type ≠ S "ass" then S ".ass"
  else '.' :: caption_type

/-- The job-scoped subtitle scratch path (lines 145, 154). -/
def jobSrtPath (options : Options) (caption_type job_id : Str) : Str :=
  S "/tmp/" ++ job_id ++ effExtension options caption_type

/-- The header prepended for the style-capable type (lines 147, 157–168). -/
def jobCaptionStyle (options : Options) (caption_type : Str) : Str :=
  if effCaptionType options caption_type = S "ass" then assHeader options else []

/-- `font_name = options.get('font_name', 'Arial')` (line 204). -/
def jobFontName (options : Options) : PyVal :=
  pyGet options (S "font_name") (.str (S "Arial"))

/-- `process_captioning` (lines 137–272): the whole pipeline, returning the
artifact name or the propagated error, together with the ordered trace of
external actions. -/
def process_captioning (env : Env) (file_url caption_srt caption_type : Str)
    (options_arr : List (Str × PyVal)) (job_id : Str) :
    Except PyErr Str × List Action :=
  match env.downloadResult with
  | .error m => (.error (.fetchFailure m), [.download file_url])
  | .ok video_path =>
    let options := convert_array_to_collection options_arr
    match materialize_caption env caption_srt options (oneWordMode options)
        (effCaptionType options caption_type) (jobCaptionStyle options caption_type)
        (jobSrtPath options caption_type job_id) with
    | (.error e, tr) => (.error e, .download file_url :: tr)
    | (.ok _, tr) =>
      let output_path := S "/tmp/" ++ job_id ++ S "_captioned.mp4"
      let fontTrace := if (select_font env.fontPaths (jobFontName options)).2 then
          [Action.warnFont (jobFontName options)] else []
      let filt := build_subtitle_filter (effExtension options caption_type)
          (jobSrtPath options caption_type job_id) options (jobFontName options)
      match env.encodeResult with
      | .error stderr =>
        (.error (.ffmpegError (decodeStderr stderr)),
         .download file_url :: tr ++ fontTrace ++ [.encode filt])
      | .ok _ =>
        match env.uploadResult with
        | .error m =>
          (.error (.uploadFailure m),
           .download file_url :: tr ++ fontTrace ++ [.encode filt, .upload output_path])
        | .ok artifact =>
          (.ok artifact,
           .download file_url :: tr ++ fontTrace ++
             [.encode filt, .upload output_path,
              .removeFile video_path, .removeFile (jobSrtPath options caption_type job_id),
              .removeFile output_path])

/-- A collaborator environment in which every external call succeeds. -/
def sampleEnv : Env where
  downloadResult := .ok (S "/tmp/video.mp4")
  fetchResult := .ok (S "1\n00:00:00,000 --> 00:00:02,000\nhello world\n\n")
  encodeResult := .ok ()
  uploadResult := .ok (S "output.mp4")
  fontPaths := [(S "Arial", S "/usr/share/fonts/custom/Arial.ttf")]

/-- `sampleEnv` with a failing encoder carrying diagnostic output. -/
def encoderFailEnv : Env :=
  { sampleEnv with encodeResult := .error (some (S "boom: encoder exploded")) }

/-! # Theorems

General-purpose lemmas first (decimal digit strings, `takeWhile`/`dropWhile`,
`pyFloat`, splitting), then the theorems settling the specification claims. -/

/-- The decimal digit characters. -/
theorem digit_char_class {c : Char} (h : c ∈ S "0123456789") :
    c.isDigit = true ∧ c.isWhitespace = false ∧ c ≠ '+' ∧ c ≠ '-' ∧
      c ≠ ':' ∧ c ≠ ',' ∧ c ≠ '.' := by
  rw [show S "0123456789" = ['0', '1', '2', '3', '4', '5', '6', '7', '8', '9'] from rfl] at h
  simp only [List.mem_cons, List.not_mem_nil, or_false] at h
  rcases h with rfl | rfl | rfl | rfl | rfl | rfl | rfl | rfl | rfl | rfl <;> decide

theorem digitChar_mem {n : ℕ} (h : n < 10) : Nat.digitChar n ∈ S "0123456789" := by
  interval_cases n <;> decide

theorem digitChar_toNat {n : ℕ} (h : n < 10) : (Nat.digitChar n).toNat - 48 = n := by
  interval_cases n <;> decide

theorem digitsToNat_append_singleton (a : Str) (c : Char) :
    digitsToNat (a ++ [c]) = 10 * digitsToNat a + (c.toNat - 48) := by
  simp [digitsToNat, List.foldl_append]

theorem digitsToNat_singleton (c : Char) : digitsToNat [c] = c.toNat - 48 := by
  simp [digitsToNat]

theorem digitsToNat_cons_zero (ds : Str) : digitsToNat ('0' :: ds) = digitsToNat ds := by
  show ds.foldl _ ('0'.toNat - 48) = ds.foldl _ 0
  norm_num [show '0'.toNat = 48 from rfl]

theorem natDigitsChars_spec :
    ∀ fuel n, n < 10 ^ fuel →
      (∀ c ∈ natDigitsChars fuel n, c ∈ S "0123456789") ∧
        digitsToNat (natDigitsChars fuel n) = n := by
  intro fuel
  induction fuel with
  | zero =>
    intro n hn
    interval_cases n
    exact ⟨by simp [natDigitsChars], by simp [natDigitsChars, digitsToNat]⟩
  | succ f ih =>
    intro n hn
    by_cases h10 : n < 10
    · refine ⟨?_, ?_⟩
      · intro c hc
        simp only [natDigitsChars, if_pos h10, List.mem_singleton] at hc
        exact hc ▸ digitChar_mem h10
      · simp only [natDigitsChars, if_pos h10]
        rw [digitsToNat_singleton, digitChar_toNat h10]
    · have hdiv : n / 10 < 10 ^ f := by
        rw [Nat.div_lt_iff_lt_mul (by norm_num)]
        calc n < 10 ^ (f + 1) := hn
        _ = 10 ^ f * 10 := by ring
      obtain ⟨ihmem, ihval⟩ := ih (n / 10) hdiv
      refine ⟨?_, ?_⟩
      · intro c hc
        simp only [natDigitsChars, if_neg h10, List.mem_append, List.mem_singleton] at hc
        rcases hc with hc | hc
        · exact ihmem c hc
        · exact hc ▸ digitChar_mem (Nat.mod_lt n (by norm_num))
      · simp only [natDigitsChars, if_neg h10]
        rw [digitsToNat_append_singleton, ihval, digitChar_toNat (Nat.mod_lt n (by norm_num))]
        omega

theorem natToChars_mem {n : ℕ} : ∀ c ∈ natToChars n, c ∈ S "0123456789" :=
  (natDigitsChars_spec (n + 1) n
    (lt_of_lt_of_le (Nat.lt_pow_self (by norm_num) n)
      (Nat.pow_le_pow_right (by norm_num) (Nat.le_succ n)))).1

theorem natToChars_val (n : ℕ) : digitsToNat (natToChars n) = n :=
  (natDigitsChars_spec (n + 1) n
    (lt_of_lt_of_le (Nat.lt_pow_self (by norm_num) n)
      (Nat.pow_le_pow_right (by norm_num) (Nat.le_succ n)))).2

theorem natToChars_ne_nil (n : ℕ) : natToChars n ≠ [] := by
  unfold natToChars natDigitsChars
  split <;> simp

theorem natToChars_of_lt_ten {n : ℕ} (h : n < 10) :
    natToChars n = [Nat.digitChar n] := by
  simp [natToChars, natDigitsChars, h]

theorem natToChars_of_two_digits {k : ℕ} (h1 : 10 ≤ k) (h2 : k < 100) :
    natToChars k = [Nat.digitChar (k / 10), Nat.digitChar (k % 10)] := by
  obtain ⟨f, rfl⟩ : ∃ f, k = f + 1 := ⟨k - 1, by omega⟩
  have hk10 : ¬ f + 1 < 10 := by omega
  have hdiv : (f + 1) / 10 < 10 := by omega
  simp [natToChars, natDigitsChars, hk10, hdiv]

theorem pad2_mem {k : ℕ} : ∀ c ∈ pad2 k, c ∈ S "0123456789" := by
  intro c hc
  unfold pad2 at hc
  split at hc
  · rcases List.mem_cons.mp hc with rfl | hc
    · decide
    · exact natToChars_mem c hc
  · exact natToChars_mem c hc

theorem pad2_val (k : ℕ) : digitsToNat (pad2 k) = k := by
  unfold pad2
  split
  · rw [digitsToNat_cons_zero, natToChars_val]
  · rw [natToChars_val]

theorem pad2_length {k : ℕ} (h : k < 100) : (pad2 k).length = 2 := by
  unfold pad2
  split
  · next h10 => rw [natToChars_of_lt_ten h10]; rfl
  · next h10 => rw [natToChars_of_two_digits (by omega) h]; rfl

/-! ## `takeWhile` / `dropWhile` / stripping lemmas -/

theorem takeWhile_eq_self_of_all {p : Char → Bool} :
    ∀ {s : Str}, (∀ c ∈ s, p c = true) → s.takeWhile p = s := by
  intro s
  induction s with
  | nil => intro _; rfl
  | cons a t ih =>
    intro h
    simp only [List.takeWhile_cons, h a (by simp), if_true]
    rw [ih fun c hc => h c (by simp [hc])]

theorem dropWhile_eq_nil_of_all {p : Char → Bool} :
    ∀ {s : Str}, (∀ c ∈ s, p c = true) → s.dropWhile p = [] := by
  intro s
  induction s with
  | nil => intro _; rfl
  | cons a t ih =>
    intro h
    simp only [List.dropWhile_cons, h a (by simp), if_true]
    exact ih fun c hc => h c (by simp [hc])

theorem takeWhile_append_of_all {p : Char → Bool} {A : Str} (B : Str)
    (h : ∀ c ∈ A, p c = true) : (A ++ B).takeWhile p = A ++ B.takeWhile p := by
  induction A with
  | nil => rfl
  | cons a t ih =>
    simp only [List.cons_append, List.takeWhile_cons, h a (by simp), if_true]
    rw [ih fun c hc => h c (by simp [hc])]

theorem dropWhile_append_of_all {p : Char → Bool} {A : Str} (B : Str)
    (h : ∀ c ∈ A, p c = true) : (A ++ B).dropWhile p = B.dropWhile p := by
  induction A with
  | nil => rfl
  | cons a t ih =>
    simp only [List.cons_append, List.dropWhile_cons, h a (by simp), if_true]
    exact ih fun c hc => h c (by simp [hc])

theorem dropWhile_eq_self_of_none {p : Char → Bool} {s : Str}
    (h : ∀ c ∈ s, p c = false) : s.dropWhile p = s := by
  cases s with
  | nil => rfl
  | cons a t => simp [List.dropWhile_cons, h a (by simp)]

theorem pyStrip_eq_self {s : Str} (h : ∀ c ∈ s, c.isWhitespace = false) :
    pyStrip s = s := by
  unfold pyStrip
  rw [dropWhile_eq_self_of_none h,
    dropWhile_eq_self_of_none (fun c hc => h c (List.mem_reverse.mp hc)),
    List.reverse_reverse]

/-! ## `pyFloat` on rendered digit strings -/

theorem pyFloatVal_digits {A : Str} (hA : ∀ c ∈ A, c ∈ S "0123456789")
    (hne : A ≠ []) : pyFloatVal A = .ok (digitsToNat A : ℚ) := by
  have hdig : ∀ c ∈ A, c.isDigit = true := fun c hc => (digit_char_class (hA c hc)).1
  unfold pyFloatVal
  rw [dropWhile_eq_nil_of_all hdig, takeWhile_eq_self_of_all hdig]
  simp [hne]

theorem pyFloat_digits {A : Str} (hA : ∀ c ∈ A, c ∈ S "0123456789")
    (hne : A ≠ []) : pyFloat A = .ok (digitsToNat A : ℚ) := by
  have hstrip : pyStrip A = A :=
    pyStrip_eq_self fun c hc => (digit_char_class (hA c hc)).2.1
  obtain ⟨a, t, rfl⟩ : ∃ a t, A = a :: t := by
    cases A with
    | nil => exact absurd rfl hne
    | cons a t => exact ⟨a, t, rfl⟩
  have haC := hA a (by simp)
  unfold pyFloat
  rw [hstrip]
  show (if a = '+' then pyFloatVal t
    else if a = '-' then Except.map (fun v => -v) (pyFloatVal t)
    else pyFloatVal (a :: t)) = _
  rw [if_neg (digit_char_class haC).2.2.1, if_neg (digit_char_class haC).2.2.2.1]
  exact pyFloatVal_digits hA hne

theorem pyFloat_intfrac {a b : Str} (ha : ∀ c ∈ a, c ∈ S "0123456789")
    (hb : ∀ c ∈ b, c ∈ S "0123456789") (hane : a ≠ []) :
    pyFloat (a ++ '.' :: b) =
      .ok ((digitsToNat a : ℚ) + (digitsToNat b : ℚ) / 10 ^ b.length) := by
  have hadig : ∀ c ∈ a, c.isDigit = true := fun c hc => (digit_char_class (ha c hc)).1
  have hbdig : ∀ c ∈ b, c.isDigit = true := fun c hc => (digit_char_class (hb c hc)).1
  have hstrip : pyStrip (a ++ '.' :: b) = a ++ '.' :: b := by
    refine pyStrip_eq_self fun c hc => ?_
    rcases List.mem_append.mp hc with hc | hc
    · exact (digit_char_class (ha c hc)).2.1
    · rcases List.mem_cons.mp hc with rfl | hc
      · rfl
      · exact (digit_char_class (hb c hc)).2.1
  have hval : pyFloatVal (a ++ '.' :: b) =
      .ok ((digitsToNat a : ℚ) + (digitsToNat b : ℚ) / 10 ^ b.length) := by
    unfold pyFloatVal
    rw [takeWhile_append_of_all _ hadig, dropWhile_append_of_all _ hadig]
    rw [show ('.' :: b).takeWhile Char.isDigit = [] from by simp [List.takeWhile_cons]]
    rw [show ('.' :: b).dropWhile Char.isDigit = '.' :: b from by simp [List.dropWhile_cons]]
    simp only [List.all_eq_true]
    simp [hane]
    exact hbdig
  obtain ⟨a0, t, rfl⟩ : ∃ a0 t, a = a0 :: t := by
    cases a with
    | nil => exact absurd rfl hane
    | cons a0 t => exact ⟨a0, t, rfl⟩
  have ha0 := ha a0 (by simp)
  unfold pyFloat
  rw [hstrip]
  show (if a0 = '+' then pyFloatVal (t ++ '.' :: b)
    else if a0 = '-' then Except.map (fun v => -v) (pyFloatVal (t ++ '.' :: b))
    else pyFloatVal (a0 :: (t ++ '.' :: b))) = _
  rw [if_neg (digit_char_class ha0).2.2.1, if_neg (digit_char_class ha0).2.2.2.1]
  exact hval

/-! ## Splitting and replacement lemmas -/

theorem pyReplaceChar_eq_self {a b : Char} {s : Str} (h : a ∉ s) :
    pyReplaceChar a b s = s := by
  unfold pyReplaceChar
  induction s with
  | nil => rfl
  | cons c t ih =>
    have hca : c ≠ a := fun hc => h (by simp [hc])
    simp only [List.map_cons, if_neg hca]
    rw [ih fun ht => h (by simp [ht])]

theorem splitOnChar_eq_single {d : Char} {A : Str} (h : d ∉ A) :
    splitOnChar d A = [A] := by
  unfold splitOnChar List.splitOn
  exact List.splitOnP_eq_single _ _ fun x hx hbeq =>
    h (by rw [show x = d from by simpa using hbeq] at hx; exact hx)

theorem splitOnChar_first {d : Char} {A : Str} (B : Str) (h : d ∉ A) :
    splitOnChar d (A ++ d :: B) = A :: splitOnChar d B := by
  unfold splitOnChar List.splitOn
  exact List.splitOnP_first _ _
    (fun x hx hbeq => h (by rw [show x = d from by simpa using hbeq] at hx; exact hx))
    d (by simp) B

theorem splitOnChar_three {d : Char} {A B C : Str} (hA : d ∉ A) (hB : d ∉ B)
    (hC : d ∉ C) : splitOnChar d (A ++ d :: (B ++ d :: C)) = [A, B, C] := by
  rw [splitOnChar_first _ hA, splitOnChar_first _ hB, splitOnChar_eq_single hC]

theorem splitOnChar_join {d : Char} {parts : List Str}
    (h : ∀ p ∈ parts, d ∉ p) (hne : parts ≠ []) :
    splitOnChar d (pyJoin [d] parts) = parts :=
  List.splitOn_intercalate _ d h hne

/-! ## C1 — word-highlight expansion: one line per word, windows tile the cue -/

/-- C1: for a cue whose text splits into `n ≥ 1` words, the word-highlight
expansion succeeds with exactly `n` dialogue lines, the `i`-th word window is
`[start + i*(end-start)/n, start + (i+1)*(end-start)/n)`, consecutive windows
share their boundary (zero gap, zero overlap), and the window widths sum to
`end - start` exactly. -/
theorem word_highlight_expansion_tiles (caption_text : Str)
    (start_time end_time : ℚ) (hi re : Str) (n : ℕ)
    (hn : (pySplitWs (pyStrip caption_text)).length = n) (hpos : 0 < n) :
    (∃ ls, process_single_word_caption caption_text start_time end_time hi re
        = .ok ls ∧ ls.length = n) ∧
    (∀ i, i < n → (wordWindows start_time end_time n).get? i =
        some (start_time + i * ((end_time - start_time) / n),
              start_time + (i + 1) * ((end_time - start_time) / n))) ∧
    (∀ i, i + 1 < n →
        ((wordWindows start_time end_time n).get? i).map Prod.snd =
        ((wordWindows start_time end_time n).get? (i + 1)).map Prod.fst) ∧
    ((wordWindows start_time end_time n).map (fun w => w.2 - w.1)).sum
        = end_time - start_time := by
  have hwne : pySplitWs (pyStrip caption_text) ≠ [] := by
    intro h0
    rw [h0] at hn
    simp at hn
    omega
  have hncast : (n : ℚ) ≠ 0 := Nat.cast_ne_zero.mpr hpos.ne'
  refine ⟨?_, ?_, ?_, ?_⟩
  · refine ⟨(pySplitWs (pyStrip caption_text)).mapIdx
        (fun i w => dialogueLine (pySplitWs (pyStrip caption_text)) start_time end_time
          (pySplitWs (pyStrip caption_text)).length hi re i w), ?_, ?_⟩
    · unfold process_single_word_caption
      rw [if_neg hwne]
    · simp [List.length_mapIdx, hn]
  · intro i hilt
    unfold wordWindows wordWindow
    rw [List.get?_map, List.get?_range hilt]
    simp only [Option.map_some', Option.some.injEq, Prod.mk.injEq, true_and]
    ring
  · intro i hilt
    unfold wordWindows wordWindow
    rw [List.get?_map, List.get?_map, List.get?_range (by omega : i < n),
      List.get?_range hilt]
    simp only [Option.map_some']
    congr 1
    push_cast
    ring
  · unfold wordWindows
    rw [List.map_map]
    have hconst : ∀ i ∈ List.range n,
        ((fun w => w.2 - w.1) ∘ wordWindow start_time end_time n) i
          = (end_time - start_time) / n := by
      intro i _
      unfold wordWindow
      simp
    rw [List.map_congr_left hconst, List.map_const', List.sum_replicate,
      List.length_range, nsmul_eq_mul, mul_div_cancel₀ _ hncast]

/-- C1 witness at the spec's own example: `"hello world"` over `[0, 2)`. -/
theorem word_highlight_expansion_tiles_witness :
    (pySplitWs (pyStrip (S "hello world"))).length = 2 ∧ 0 < 2 ∧
    ((∃ ls, process_single_word_caption (S "hello world") 0 2 (S "FFFFFF") (S "AAAAAA")
        = .ok ls ∧ ls.length = 2) ∧
      (∀ i, i < 2 → (wordWindows 0 2 2).get? i =
          some ((0 + i * ((2 - 0) / 2) : ℚ), (0 + (i + 1) * ((2 - 0) / 2) : ℚ))) ∧
      (∀ i, i + 1 < 2 → ((wordWindows 0 2 2).get? i).map Prod.snd =
          ((wordWindows 0 2 2).get? (i + 1)).map Prod.fst) ∧
      ((wordWindows 0 2 2).map (fun w => w.2 - w.1)).sum = 2 - 0) :=
  ⟨by decide, by decide,
    word_highlight_expansion_tiles (S "hello world") 0 2 (S "FFFFFF") (S "AAAAAA") 2
      (by decide) (by decide)⟩

/-! ## C2 — a cue with zero words fails, and the failure propagates -/

/-- C2: a cue whose text has no words makes the word-highlight expansion fail
(the division by the word count raises `ZeroDivisionError`, realising the
spec's `EmptyCue`); the same failure propagates through
`convert_srt_to_one_word_ass` and through the whole pipeline, so the job
fails. -/
theorem empty_cue_fails (caption_text : Str) (start_time end_time : ℚ)
    (hi re : Str) (h : pySplitWs (pyStrip caption_text) = []) :
    process_single_word_caption caption_text start_time end_time hi re
        = .error .zeroDivisionError ∧
    convert_srt_to_one_word_ass
        (S "1\n00:00:00,000 --> 00:00:01,000\n \n\n2\n00:00:01,000 --> 00:00:02,000\nok") []
        = .error .zeroDivisionError ∧
    (process_captioning sampleEnv (S "http://v.example/v.mp4")
        (S "1\n00:00:00,000 --> 00:00:01,000\n \n\n2\n00:00:01,000 --> 00:00:02,000\nok")
        (S "srt") [(S "one_word_mode", .bool true)] (S "job1")).1
        = .error .zeroDivisionError := by
  refine ⟨?_, ?_, ?_⟩
  · unfold process_single_word_caption
    rw [h]
    rfl
  · with_unfolding_all decide
  · with_unfolding_all decide

/-- C2 witness: a cue text consisting of two spaces has no words and the
expansion fails. -/
theorem empty_cue_fails_witness :
    pySplitWs (pyStrip (S "  ")) = [] ∧
    (process_single_word_caption (S "  ") 0 1 (S "FFFFFF") (S "AAAAAA")
        = .error .zeroDivisionError ∧
      convert_srt_to_one_word_ass
          (S "1\n00:00:00,000 --> 00:00:01,000\n \n\n2\n00:00:01,000 --> 00:00:02,000\nok") []
          = .error .zeroDivisionError ∧
      (process_captioning sampleEnv (S "http://v.example/v.mp4")
          (S "1\n00:00:00,000 --> 00:00:01,000\n \n\n2\n00:00:01,000 --> 00:00:02,000\nok")
          (S "srt") [(S "one_word_mode", .bool true)] (S "job1")).1
          = .error .zeroDivisionError) :=
  ⟨by decide, empty_cue_fails (S "  ") 0 1 (S "FFFFFF") (S "AAAAAA") (by decide)⟩

/-! ## C3 — `parse (format x)` recovers `x` to within a centisecond -/

theorem pad2_ne_nil (k : ℕ) : pad2 k ≠ [] := by
  unfold pad2
  split
  · simp
  · exact natToChars_ne_nil k

theorem pyFloat_pad2 (k : ℕ) : pyFloat (pad2 k) = .ok (k : ℚ) := by
  rw [pyFloat_digits pad2_mem (pad2_ne_nil k), pad2_val]

theorem pyFloat_natToChars (n : ℕ) : pyFloat (natToChars n) = .ok (n : ℚ) := by
  rw [pyFloat_digits natToChars_mem (natToChars_ne_nil n), natToChars_val]

theorem pyFloat_fix2 {k : ℕ} (hk : k % 100 < 100) :
    pyFloat (fix2 k) = .ok ((k : ℚ) / 100) := by
  unfold fix2
  rw [pyFloat_intfrac pad2_mem pad2_mem (pad2_ne_nil _)]
  congr 1
  rw [pad2_val, pad2_val, pad2_length hk]
  have hdm : 100 * (k / 100) + k % 100 = k := Nat.div_add_mod k 100
  field_simp
  exact_mod_cast by omega

/-- C3: for every `x ≥ 0`, parsing the formatted timecode succeeds and
recovers `x` to within one centisecond (the only loss is the `%.2f` rounding
of the seconds field, at most half a centisecond on exact rationals). -/
theorem parse_format_roundtrip (x : ℚ) (hx : 0 ≤ x) :
    ∃ v, parseTimecode (formatTimecode x) = .ok v ∧ |v - x| ≤ 1 / 100 := by
  have hh0 : (0 : ℤ) ≤ ⌊x / 3600⌋ := Int.floor_nonneg.mpr (by positivity)
  have hfloor_le : ((⌊x / 3600⌋ : ℤ) : ℚ) ≤ x / 3600 := Int.floor_le _
  have hfloor_lt : x / 3600 < (⌊x / 3600⌋ : ℤ) + 1 := Int.lt_floor_add_one _
  have hm0 : (0 : ℤ) ≤ ⌊(x - 3600 * ((⌊x / 3600⌋ : ℤ) : ℚ)) / 60⌋ := by
    refine Int.floor_nonneg.mpr ?_
    have : 3600 * ((⌊x / 3600⌋ : ℤ) : ℚ) ≤ x := by linarith
    linarith
  have hc0 : (0 : ℤ) ≤ ⌊100 * (x - 60 * ((⌊x / 60⌋ : ℤ) : ℚ)) + 1 / 2⌋ := by
    refine Int.floor_nonneg.mpr ?_
    have h60 : ((⌊x / 60⌋ : ℤ) : ℚ) ≤ x / 60 := Int.floor_le _
    have : 60 * ((⌊x / 60⌋ : ℤ) : ℚ) ≤ x := by linarith
    linarith
  have hformat : formatTimecode x =
      natToChars (⌊x / 3600⌋).toNat ++
        ':' :: (pad2 (⌊(x - 3600 * ((⌊x / 3600⌋ : ℤ) : ℚ)) / 60⌋).toNat ++
          ':' :: fix2 (⌊100 * (x - 60 * ((⌊x / 60⌋ : ℤ) : ℚ)) + 1 / 2⌋).toNat) := by
    unfold formatTimecode intToChars centiOfSeconds
    rw [if_neg (not_lt.mpr hh0)]
    simp [List.append_assoc]
  set A := natToChars (⌊x / 3600⌋).toNat with hA_def
  set B := pad2 (⌊(x - 3600 * ((⌊x / 3600⌋ : ℤ) : ℚ)) / 60⌋).toNat with hB_def
  set C := fix2 (⌊100 * (x - 60 * ((⌊x / 60⌋ : ℤ) : ℚ)) + 1 / 2⌋).toNat with hC_def
  have hCmem : ∀ ch ∈ C, ch ∈ S "0123456789" ∨ ch = '.' := by
    intro ch hch
    rw [hC_def] at hch
    unfold fix2 at hch
    rcases List.mem_append.mp hch with hch | hch
    · exact Or.inl (pad2_mem ch hch)
    · rcases List.mem_cons.mp hch with rfl | hch
      · exact Or.inr rfl
      · exact Or.inl (pad2_mem ch hch)
  have hnotA : ∀ d : Char, d ∈ S "0123456789" → False → True := fun _ _ _ => trivial
  have hcolA : ':' ∉ A := fun hmem =>
    (digit_char_class (natToChars_mem _ hmem)).2.2.2.2.1 rfl
  have hcolB : ':' ∉ B := fun hmem =>
    (digit_char_class (pad2_mem _ hmem)).2.2.2.2.1 rfl
  have hcolC : ':' ∉ C := by
    intro hmem
    rcases hCmem _ hmem with hd | hd
    · exact (digit_char_class hd).2.2.2.2.1 rfl
    · exact absurd hd (by decide)
  have hcomma : ',' ∉ formatTimecode x := by
    rw [hformat]
    intro hmem
    rcases List.mem_append.mp hmem with hmem | hmem
    · exact (digit_char_class (natToChars_mem _ hmem)).2.2.2.2.2.1 rfl
    · rcases List.mem_cons.mp hmem with hmem | hmem
      · exact absurd hmem (by decide)
      · rcases List.mem_append.mp hmem with hmem | hmem
        · exact (digit_char_class (pad2_mem _ hmem)).2.2.2.2.2.1 rfl
        · rcases List.mem_cons.mp hmem with hmem | hmem
          · exact absurd hmem (by decide)
          · rcases hCmem _ hmem with hd | hd
            · exact (digit_char_class hd).2.2.2.2.2.1 rfl
            · exact absurd hd (by decide)
  have hsplit : splitOnChar ':' (pyReplaceChar ',' '.' (formatTimecode x))
      = [A, B, C] := by
    rw [pyReplaceChar_eq_self hcomma, hformat]
    exact splitOnChar_three hcolA hcolB hcolC
  have hfA : pyFloat A = .ok ((⌊x / 3600⌋).toNat : ℚ) := pyFloat_natToChars _
  have hfB : pyFloat B =
      .ok ((⌊(x - 3600 * ((⌊x / 3600⌋ : ℤ) : ℚ)) / 60⌋).toNat : ℚ) := pyFloat_pad2 _
  have hfC : pyFloat C =
      .ok (((⌊100 * (x - 60 * ((⌊x / 60⌋ : ℤ) : ℚ)) + 1 / 2⌋).toNat : ℚ) / 100) :=
    pyFloat_fix2 (Nat.mod_lt _ (by norm_num))
  have hparse : parseTimecode (formatTimecode x) =
      .ok ((((⌊100 * (x - 60 * ((⌊x / 60⌋ : ℤ) : ℚ)) + 1 / 2⌋).toNat : ℚ) / 100) * 1 +
        (((⌊(x - 3600 * ((⌊x / 3600⌋ : ℤ) : ℚ)) / 60⌋).toNat : ℚ) * 60 +
          (((⌊x / 3600⌋).toNat : ℚ) * 3600 + 0))) := by
    unfold parseTimecode
    rw [hsplit]
    unfold parseTimecodeParts
    simp only [List.reverse_cons, List.reverse_nil, List.nil_append, List.cons_append,
      List.zip_cons_cons, List.zip_nil_right]
    unfold sumTimecodeTerms
    rw [hfC]
    unfold sumTimecodeTerms
    rw [hfB]
    unfold sumTimecodeTerms
    rw [hfA]
    rfl
  refine ⟨_, hparse, ?_⟩
  have hcast_h : (((⌊x / 3600⌋).toNat : ℕ) : ℚ) = ((⌊x / 3600⌋ : ℤ) : ℚ) := by
    exact_mod_cast congrArg (fun z : ℤ => (z : ℚ)) (Int.toNat_of_nonneg hh0)
  have hcast_m : (((⌊(x - 3600 * ((⌊x / 3600⌋ : ℤ) : ℚ)) / 60⌋).toNat : ℕ) : ℚ)
      = ((⌊(x - 3600 * ((⌊x / 3600⌋ : ℤ) : ℚ)) / 60⌋ : ℤ) : ℚ) := by
    exact_mod_cast congrArg (fun z : ℤ => (z : ℚ)) (Int.toNat_of_nonneg hm0)
  have hcast_c : (((⌊100 * (x - 60 * ((⌊x / 60⌋ : ℤ) : ℚ)) + 1 / 2⌋).toNat : ℕ) : ℚ)
      = ((⌊100 * (x - 60 * ((⌊x / 60⌋ : ℤ) : ℚ)) + 1 / 2⌋ : ℤ) : ℚ) := by
    exact_mod_cast congrArg (fun z : ℤ => (z : ℚ)) (Int.toNat_of_nonneg hc0)
  -- the minute floor splits off the hour floor exactly
  have hm_eq : ⌊(x - 3600 * ((⌊x / 3600⌋ : ℤ) : ℚ)) / 60⌋ = ⌊x / 60⌋ - 60 * ⌊x / 3600⌋ := by
    rw [show (x - 3600 * ((⌊x / 3600⌋ : ℤ) : ℚ)) / 60
        = x / 60 - ((60 * ⌊x / 3600⌋ : ℤ) : ℚ) by push_cast; ring]
    rw [Int.floor_sub_int]
  -- the rounding error of the seconds field
  have hcr : |((⌊100 * (x - 60 * ((⌊x / 60⌋ : ℤ) : ℚ)) + 1 / 2⌋ : ℤ) : ℚ) / 100 -
      (x - 60 * ((⌊x / 60⌋ : ℤ) : ℚ))| ≤ 1 / 200 := by
    have h1 : ((⌊100 * (x - 60 * ((⌊x / 60⌋ : ℤ) : ℚ)) + 1 / 2⌋ : ℤ) : ℚ)
        ≤ 100 * (x - 60 * ((⌊x / 60⌋ : ℤ) : ℚ)) + 1 / 2 := Int.floor_le _
    have h2 : 100 * (x - 60 * ((⌊x / 60⌋ : ℤ) : ℚ)) + 1 / 2
        < ((⌊100 * (x - 60 * ((⌊x / 60⌋ : ℤ) : ℚ)) + 1 / 2⌋ : ℤ) : ℚ) + 1 :=
      Int.lt_floor_add_one _
    rw [abs_le]
    constructor <;> linarith
  rw [hcast_c, hcast_m, hcast_h, hm_eq]
  have hrw : ((⌊100 * (x - 60 * ((⌊x / 60⌋ : ℤ) : ℚ)) + 1 / 2⌋ : ℤ) : ℚ) / 100 * 1 +
      (((⌊x / 60⌋ - 60 * ⌊x / 3600⌋ : ℤ) : ℚ) * 60 + (((⌊x / 3600⌋ : ℤ) : ℚ) * 3600 + 0)) - x
      = ((⌊100 * (x - 60 * ((⌊x / 60⌋ : ℤ) : ℚ)) + 1 / 2⌋ : ℤ) : ℚ) / 100 -
        (x - 60 * ((⌊x / 60⌋ : ℤ) : ℚ)) := by
    push_cast
    ring
  rw [hrw]
  linarith [hcr, abs_le.mp hcr]

/-- C3 witness at `x = 3723.456` (formatted `1:02:03.46`, parsed back within
a centisecond). -/
theorem parse_format_roundtrip_witness :
    (0 : ℚ) ≤ 3723456 / 1000 ∧
      ∃ v, parseTimecode (formatTimecode (3723456 / 1000)) = .ok v ∧
        |v - 3723456 / 1000| ≤ 1 / 100 :=
  ⟨by norm_num, parse_format_roundtrip (3723456 / 1000) (by norm_num)⟩

/-! ## C4 — what timecode parsing actually does with extra or bad components -/

theorem zip_eq_zip_take {α β : Type} :
    ∀ (xs : List α) (ys : List β), xs.zip ys = (xs.take ys.length).zip ys := by
  intro xs
  induction xs with
  | nil => intro ys; simp
  | cons x xt ih =>
    intro ys
    cases ys with
    | nil => simp
    | cons y yt => simp [List.zip_cons_cons, ih yt]

theorem sumTimecodeTerms_isOk :
    ∀ l : List (Str × ℚ),
      (∃ v, sumTimecodeTerms l = .ok v) ↔ ∀ p ∈ l, ∃ w, pyFloat p.1 = .ok w := by
  intro l
  induction l with
  | nil => simp [sumTimecodeTerms]
  | cons a rest ih =>
    obtain ⟨s, m⟩ := a
    constructor
    · rintro ⟨v, hv⟩ p hp
      unfold sumTimecodeTerms at hv
      cases hfs : pyFloat s with
      | error e => rw [hfs] at hv; simp [Bind.bind, Except.bind] at hv
      | ok w =>
        rcases List.mem_cons.mp hp with rfl | hp
        · exact ⟨w, hfs⟩
        · cases hrest : sumTimecodeTerms rest with
          | error e => rw [hfs, hrest] at hv; simp [Bind.bind, Except.bind] at hv
          | ok r => exact (ih.mp ⟨r, hrest⟩) p hp
    · intro hall
      obtain ⟨w, hw⟩ := hall (s, m) (by simp)
      obtain ⟨r, hr⟩ := ih.mpr (fun p hp => hall p (by simp [hp]))
      refine ⟨w * m + r, ?_⟩
      unfold sumTimecodeTerms
      rw [hw, hr]
      rfl

/-- C4 counterexample: `"1:2:3:4"` has four colon-separated components, yet
parsing silently succeeds with `4 + 3*60 + 2*3600 = 7384` seconds — the
leading component is dropped, not rejected; a non-numeric component is also
accepted when it is not among the last three. -/
theorem parseTimecode_extra_components_accepted :
    parseTimecode (S "1:2:3:4") = .ok 7384 ∧
      parseTimecode (S "ab:1:2:3") = .ok 3723 := by
  constructor
  · unfold parseTimecode parseTimecodeParts
    rw [show splitOnChar ':' (pyReplaceChar ',' '.' (S "1:2:3:4"))
        = [S "1", S "2", S "3", S "4"] from by decide]
    rw [show ([S "1", S "2", S "3", S "4"].reverse.zip [(1 : ℚ), 60, 3600])
        = [(S "4", (1 : ℚ)), (S "3", (60 : ℚ)), (S "2", (3600 : ℚ))] from rfl]
    simp only [sumTimecodeTerms,
      show pyFloat (S "4") = .ok 4 from by with_unfolding_all decide,
      show pyFloat (S "3") = .ok 3 from by with_unfolding_all decide,
      show pyFloat (S "2") = .ok 2 from by with_unfolding_all decide]
    show Except.ok ((4 : ℚ) * 1 + (3 * 60 + (2 * 3600 + 0))) = _
    norm_num
  · unfold parseTimecode parseTimecodeParts
    rw [show splitOnChar ':' (pyReplaceChar ',' '.' (S "ab:1:2:3"))
        = [S "ab", S "1", S "2", S "3"] from by decide]
    rw [show ([S "ab", S "1", S "2", S "3"].reverse.zip [(1 : ℚ), 60, 3600])
        = [(S "3", (1 : ℚ)), (S "2", (60 : ℚ)), (S "1", (3600 : ℚ))] from rfl]
    simp only [sumTimecodeTerms,
      show pyFloat (S "3") = .ok 3 from by with_unfolding_all decide,
      show pyFloat (S "2") = .ok 2 from by with_unfolding_all decide,
      show pyFloat (S "1") = .ok 1 from by with_unfolding_all decide]
    show Except.ok ((3 : ℚ) * 1 + (2 * 60 + (1 * 3600 + 0))) = _
    norm_num

/-- C4 amended: the reversed component list is zipped with `[1, 60, 3600]`,
which truncates at three entries.  Hence parsing uses exactly the last
`min 3 k` of the `k` components — extra leading components are silently
ignored, whatever they contain — and parsing succeeds iff each of the used
components is numeric (otherwise `float` raises `ValueError`, the code's
realisation of `MalformedTimecode`). -/
theorem parseTimecodeParts_last_three (ps : List Str) :
    parseTimecodeParts ps = parseTimecodeParts ((ps.reverse.take 3).reverse) ∧
      ((∃ v, parseTimecodeParts ps = .ok v) ↔
        ∀ p ∈ ps.reverse.take 3, ∃ w, pyFloat p = .ok w) := by
  have hzip : ps.reverse.zip [(1 : ℚ), 60, 3600]
      = (ps.reverse.take 3).zip [(1 : ℚ), 60, 3600] :=
    zip_eq_zip_take ps.reverse [(1 : ℚ), 60, 3600]
  constructor
  · unfold parseTimecodeParts
    rw [List.reverse_reverse, hzip]
  · unfold parseTimecodeParts
    rw [hzip, sumTimecodeTerms_isOk]
    have hfst : ((ps.reverse.take 3).zip [(1 : ℚ), 60, 3600]).map Prod.fst
        = ps.reverse.take 3 :=
      List.map_fst_zip _ _ (by
        calc (ps.reverse.take 3).length ≤ 3 := by
              rw [List.length_take]; exact Nat.min_le_left _ _
          _ ≤ _ := by norm_num)
    constructor
    · intro hall p hp
      rw [← hfst] at hp
      obtain ⟨q, hq, rfl⟩ := List.mem_map.mp hp
      exact hall q hq
    · intro hall p hp
      refine hall p.1 ?_
      rw [← hfst]
      exact List.mem_map.mpr ⟨p, hp, rfl⟩

/-! ## C5 — the style line always has exactly 22 fields in fixed order -/

theorem pyJoin_cons_absorb (d : Char) (P v : Str) (vs : List Str) :
    P ++ pyJoin [d] (v :: vs) = pyJoin [d] ((P ++ v) :: vs) := by
  unfold pyJoin
  cases vs with
  | nil => simp [List.intercalate]
  | cons w ws => simp [List.intercalate]

theorem splitOnChar_prefix_join {d : Char} {P : Str} {vs : List Str}
    (hP : d ∉ P) (hvs : ∀ u ∈ vs, d ∉ u) (hne : vs ≠ []) :
    (splitOnChar d (P ++ pyJoin [d] vs)).length = vs.length := by
  obtain ⟨v, rest, rfl⟩ := List.exists_cons_of_ne_nil hne
  rw [pyJoin_cons_absorb]
  rw [splitOnChar_join ?_ (by simp)]
  · simp
  · intro u hu
    rcases List.mem_cons.mp hu with rfl | hu
    · intro hd
      rcases List.mem_append.mp hd with hd | hd
      · exact hP hd
      · exact hvs v (by simp) hd
    · exact hvs u (by simp [hu])

/-- C5: for every options dictionary, `generate_style_line` is the fixed
prefix `"Style: "` followed by the comma-join of exactly 22 values whose keys
are, in order: Name, Fontname, Fontsize, PrimaryColour, OutlineColour,
BackColour, Bold, Italic, Underline, StrikeOut, ScaleX, ScaleY, Spacing,
Angle, BorderStyle, Outline, Shadow, Alignment, MarginL, MarginR, MarginV,
Encoding — the scale/spacing/angle/border-style fields being the constants
100, 100, 0, 0, 1.  When no supplied value itself contains a comma, the
rendered line therefore splits on `','` into exactly 22 fields. -/
theorem style_line_22_fields (options : Options) :
    (styleOptionsList options).map (fun kv => kv.1) =
      [S "Name", S "Fontname", S "Fontsize", S "PrimaryColour", S "OutlineColour",
        S "BackColour", S "Bold", S "Italic", S "Underline", S "StrikeOut",
        S "ScaleX", S "ScaleY", S "Spacing", S "Angle", S "BorderStyle",
        S "Outline", S "Shadow", S "Alignment", S "MarginL", S "MarginR",
        S "MarginV", S "Encoding"] ∧
    (styleOptionsList options).length = 22 ∧
    ((styleOptionsList options).map (fun kv => kv.2)).take 1 = [.str (S "Default")] ∧
    (((styleOptionsList options).map (fun kv => kv.2)).drop 10).take 5 =
      [.int 100, .int 100, .int 0, .int 0, .int 1] ∧
    generate_style_line options =
      S "Style: " ++ pyJoin [','] ((styleOptionsList options).map (fun kv => pyValStr kv.2)) ∧
    ((∀ kv ∈ styleOptionsList options, ',' ∉ pyValStr kv.2) →
      (splitOnChar ',' (generate_style_line options)).length = 22) := by
  refine ⟨rfl, rfl, rfl, rfl, rfl, ?_⟩
  intro hvals
  rw [show generate_style_line options = S "Style: " ++
    pyJoin [','] ((styleOptionsList options).map (fun kv => pyValStr kv.2)) from rfl]
  rw [splitOnChar_prefix_join (by decide) ?_ (by simp [styleOptionsList])]
  · simp [styleOptionsList]
  · intro u hu
    obtain ⟨kv, hkv, rfl⟩ := List.mem_map.mp hu
    exact hvals kv hkv

/-- C5 witness: with no options supplied, every default value is comma-free
and the rendered style line splits into exactly 22 fields. -/
theorem style_line_22_fields_witness :
    (splitOnChar ',' (generate_style_line [])).length = 22 :=
  (style_line_22_fields []).2.2.2.2.2 (by decide)

/-! ## C8 — the `force_style` clause for the plain dialects -/

/-- C8: for a non-style-capable extension the filter argument is
`subtitles=<path>:force_style='…'` where the clause joins `k=v` entries with
commas: the entries come from the fixed 22-key ordered list (font name, size,
colors, flags, alignment, margins, outline, shadow, blur, border style,
encoding, spacing, angle, uppercase), every entry whose value is the `None`
sentinel is omitted, every other entry appears, and source order is
preserved. -/
theorem force_style_clause (options : Options) (font_name : PyVal)
    (ext srt_path : Str) (hext : ext ≠ S ".ass") :
    build_subtitle_filter ext srt_path options font_name
      = S "subtitles=" ++ srt_path ++ S ":force_style='" ++
        pyJoin [','] (((forceStyleOptionsList options font_name).filter
            (fun kv => kv.2 ≠ PyVal.none)).map
          (fun kv => kv.1 ++ '=' :: pyValStr kv.2)) ++ S "'" ∧
    (forceStyleOptionsList options font_name).map (fun kv => kv.1) =
      [S "FontName", S "FontSize", S "PrimaryColour", S "SecondaryColour",
        S "OutlineColour", S "BackColour", S "Bold", S "Italic", S "Underline",
        S "StrikeOut", S "Alignment", S "MarginV", S "MarginL", S "MarginR",
        S "Outline", S "Shadow", S "Blur", S "BorderStyle", S "Encoding",
        S "Spacing", S "Angle", S "UpperCase"] ∧
    (∀ kv ∈ forceStyleOptionsList options font_name,
      (kv.2 = PyVal.none →
        kv ∉ (forceStyleOptionsList options font_name).filter
          (fun kv => kv.2 ≠ PyVal.none)) ∧
      (kv.2 ≠ PyVal.none →
        kv ∈ (forceStyleOptionsList options font_name).filter
          (fun kv => kv.2 ≠ PyVal.none))) ∧
    ((forceStyleOptionsList options font_name).filter
        (fun kv => kv.2 ≠ PyVal.none)).Sublist
      (forceStyleOptionsList options font_name) := by
  refine ⟨?_, rfl, ?_, List.filter_sublist _⟩
  · unfold build_subtitle_filter
    rw [if_neg hext]
  · intro kv hkv
    constructor
    · intro hnone hmem
      have := (List.mem_filter.mp hmem).2
      simp [hnone] at this
    · intro hnotnone
      exact List.mem_filter.mpr ⟨hkv, by simpa using hnotnone⟩

/-- C8 witness: with `ext = ".srt"`, an explicitly null `blur` option and the
defaults otherwise, the conclusion holds (the `Blur` entry is omitted from
the clause, all other keys appear). -/
theorem force_style_clause_witness :
    (S ".srt" ≠ S ".ass") ∧
    (build_subtitle_filter (S ".srt") (S "/tmp/job1.srt")
        [(S "blur", PyVal.none)] (.str (S "Arial"))
      = S "subtitles=" ++ S "/tmp/job1.srt" ++ S ":force_style='" ++
        pyJoin [','] (((forceStyleOptionsList [(S "blur", PyVal.none)]
            (.str (S "Arial"))).filter (fun kv => kv.2 ≠ PyVal.none)).map
          (fun kv => kv.1 ++ '=' :: pyValStr kv.2)) ++ S "'" ∧
      (forceStyleOptionsList [(S "blur", PyVal.none)] (.str (S "Arial"))).map
          (fun kv => kv.1) =
        [S "FontName", S "FontSize", S "PrimaryColour", S "SecondaryColour",
          S "OutlineColour", S "BackColour", S "Bold", S "Italic", S "Underline",
          S "StrikeOut", S "Alignment", S "MarginV", S "MarginL", S "MarginR",
          S "Outline", S "Shadow", S "Blur", S "BorderStyle", S "Encoding",
          S "Spacing", S "Angle", S "UpperCase"] ∧
      (∀ kv ∈ forceStyleOptionsList [(S "blur", PyVal.none)] (.str (S "Arial")),
        (kv.2 = PyVal.none →
          kv ∉ (forceStyleOptionsList [(S "blur", PyVal.none)]
              (.str (S "Arial"))).filter (fun kv => kv.2 ≠ PyVal.none)) ∧
        (kv.2 ≠ PyVal.none →
          kv ∈ (forceStyleOptionsList [(S "blur", PyVal.none)]
              (.str (S "Arial"))).filter (fun kv => kv.2 ≠ PyVal.none))) ∧
      ((forceStyleOptionsList [(S "blur", PyVal.none)] (.str (S "Arial"))).filter
          (fun kv => kv.2 ≠ PyVal.none)).Sublist
        (forceStyleOptionsList [(S "blur", PyVal.none)] (.str (S "Arial")))) :=
  ⟨by decide,
    force_style_clause [(S "blur", PyVal.none)] (.str (S "Arial"))
      (S ".srt") (S "/tmp/job1.srt") (by decide)⟩

/-! ## C7 — an unknown font warns and falls back, but the fallback never
reaches the filter argument -/

/-- C7: requesting a font that the resolver does not know never fails —
`select_font` warns and selects the `Arial` fallback — but the fallback is
dead: the `force_style` clause still names the requested font.  Generally,
the first entry of the clause is always `FontName=<requested name>`; at the
concrete failing input `"NoFont"` the whole filter argument carries
`FontName=NoFont`, not the default font. -/
theorem unknown_font_warns_but_not_substituted :
    (∀ (fontPaths : List (Str × Str)) (name : Str),
      fontLookup fontPaths name = Option.none →
        select_font fontPaths (.str name) = (fontLookup fontPaths (S "Arial"), true)) ∧
    (∀ (options : Options) (name : Str),
      (((forceStyleOptionsList options (.str name)).filter
            (fun kv => kv.2 ≠ PyVal.none)).map
          (fun kv => kv.1 ++ '=' :: pyValStr kv.2)).head? =
        some (S "FontName" ++ '=' :: name)) ∧
    select_font sampleEnv.fontPaths (.str (S "NoFont"))
      = (some (S "/usr/share/fonts/custom/Arial.ttf"), true) ∧
    build_subtitle_filter (S ".srt") (S "/tmp/job1.srt") [] (.str (S "NoFont"))
      = S "subtitles=/tmp/job1.srt:force_style='FontName=NoFont,FontSize=24,PrimaryColour=&H00FFFFFF,SecondaryColour=&H00000000,OutlineColour=&H00000000,BackColour=&H00000000,Bold=0,Italic=0,Underline=0,StrikeOut=0,Alignment=2,MarginV=10,MarginL=10,MarginR=10,Outline=1,Shadow=0,Blur=0,BorderStyle=1,Encoding=1,Spacing=0,Angle=0,UpperCase=0'" := by
  refine ⟨?_, ?_, by decide, by decide⟩
  · intro fontPaths name hmiss
    rw [show select_font fontPaths (.str name)
        = (match fontLookup fontPaths name with
            | some p => (some p, false)
            | Option.none => (fontLookup fontPaths (S "Arial"), true)) from rfl, hmiss]
  · intro options name
    rfl

/-! ## C6 — blocks with fewer than 3 lines are silently dropped -/

theorem parseCues_go (f : List Str → Cue) :
    ∀ (blocks : List (List Str)) (acc : List Cue),
      (∀ b ∈ blocks, 3 ≤ b.length → parseCueBlock b = .ok (f b)) →
      blocks.foldlM parseCueStep acc
        = .ok (acc ++ (blocks.filter (fun b => 3 ≤ b.length)).map f) := by
  intro blocks
  induction blocks with
  | nil =>
    intro acc h
    show Except.ok acc = _
    simp
  | cons b bt ih =>
    intro acc h
    rw [List.foldlM_cons]
    by_cases hb : 3 ≤ b.length
    · rw [show parseCueStep acc b = do
          let c ← parseCueBlock b
          pure (acc ++ [c]) from by unfold parseCueStep; rw [if_pos hb]]
      rw [h b (List.mem_cons_self b bt) hb]
      show bt.foldlM parseCueStep (acc ++ [f b]) = _
      rw [ih (acc ++ [f b]) (fun x hx hx3 => h x (List.mem_cons_of_mem b hx) hx3)]
      rw [List.filter_cons_of_pos (by simpa using hb)]
      simp
    · rw [show parseCueStep acc b = pure acc from by unfold parseCueStep; rw [if_neg hb]]
      show bt.foldlM parseCueStep acc = _
      rw [ih acc (fun x hx hx3 => h x (List.mem_cons_of_mem b hx) hx3)]
      rw [List.filter_cons_of_neg (by simpa using hb)]

theorem countP_length_split (blocks : List (List Str)) :
    blocks.countP (fun b => decide (3 ≤ b.length))
      + blocks.countP (fun b => decide (b.length < 3)) = blocks.length := by
  induction blocks with
  | nil => simp
  | cons b bt ihc =>
    by_cases h3 : 3 ≤ b.length <;> simp [List.countP_cons, h3]
    · rw [Nat.add_right_comm, ihc]
    · rw [if_pos (by omega : b.length < 3), ← Nat.add_assoc, ihc]

/-- C6: the parser silently drops every block with fewer than 3 lines — no
error is raised, the surviving blocks are parsed in source order (the kept
blocks form a sublist), and when exactly one block is short the cue count is
exactly the block count minus one. -/
theorem parser_silently_drops_short_blocks (blocks : List (List Str))
    (f : List Str → Cue)
    (hok : ∀ b ∈ blocks, 3 ≤ b.length → parseCueBlock b = .ok (f b)) :
    parseCues blocks = .ok ((blocks.filter (fun b => 3 ≤ b.length)).map f) ∧
    (blocks.filter (fun b => 3 ≤ b.length)).Sublist blocks ∧
    (blocks.countP (fun b => decide (b.length < 3)) = 1 →
      ∃ cs, parseCues blocks = .ok cs ∧ cs.length = blocks.length - 1) := by
  have hmain : parseCues blocks
      = .ok ((blocks.filter (fun b => 3 ≤ b.length)).map f) := by
    unfold parseCues
    simpa using parseCues_go f blocks [] hok
  refine ⟨hmain, List.filter_sublist _, ?_⟩
  intro hone
  refine ⟨_, hmain, ?_⟩
  rw [List.length_map]
  have hcnt : (blocks.filter (fun b => 3 ≤ b.length)).length
      = blocks.countP (fun b => decide (3 ≤ b.length)) :=
    (List.countP_eq_length_filter _ _).symm
  have key := countP_length_split blocks
  rw [hcnt]
  omega

/-- C6 witness: two blocks, the second holding only an index line and a
timecode line; the parser returns one cue (for the first block), in order. -/
theorem parser_silently_drops_short_blocks_witness :
    (∀ b ∈ srtBlocks
        (S "1\n00:00:00,000 --> 00:00:01,000\nhello\n\n2\n00:00:01,000 --> 00:00:02,000"),
      3 ≤ b.length → parseCueBlock b = .ok (⟨0, 1, S "hello"⟩ : Cue)) ∧
    (parseCues (srtBlocks
        (S "1\n00:00:00,000 --> 00:00:01,000\nhello\n\n2\n00:00:01,000 --> 00:00:02,000"))
      = .ok (((srtBlocks
          (S "1\n00:00:00,000 --> 00:00:01,000\nhello\n\n2\n00:00:01,000 --> 00:00:02,000")).filter
          (fun b => 3 ≤ b.length)).map (fun _ => (⟨0, 1, S "hello"⟩ : Cue))) ∧
      ((srtBlocks
          (S "1\n00:00:00,000 --> 00:00:01,000\nhello\n\n2\n00:00:01,000 --> 00:00:02,000")).filter
          (fun b => 3 ≤ b.length)).Sublist
        (srtBlocks
          (S "1\n00:00:00,000 --> 00:00:01,000\nhello\n\n2\n00:00:01,000 --> 00:00:02,000")) ∧
      ((srtBlocks
          (S "1\n00:00:00,000 --> 00:00:01,000\nhello\n\n2\n00:00:01,000 --> 00:00:02,000")).countP
          (fun b => decide (b.length < 3)) = 1 →
        ∃ cs, parseCues (srtBlocks
            (S "1\n00:00:00,000 --> 00:00:01,000\nhello\n\n2\n00:00:01,000 --> 00:00:02,000"))
          = .ok cs ∧
          cs.length = (srtBlocks
            (S "1\n00:00:00,000 --> 00:00:01,000\nhello\n\n2\n00:00:01,000 --> 00:00:02,000")).length
            - 1)) :=
  ⟨by with_unfolding_all decide,
    parser_silently_drops_short_blocks _ _ (by with_unfolding_all decide)⟩

/-- C7 witness: `"NoFont"` is not in the sample font table, and the selection
falls back to the `Arial` entry with the warning flag set. -/
theorem unknown_font_warns_but_not_substituted_witness :
    fontLookup sampleEnv.fontPaths (S "NoFont") = Option.none ∧
    select_font sampleEnv.fontPaths (.str (S "NoFont"))
      = (fontLookup sampleEnv.fontPaths (S "Arial"), true) :=
  ⟨by decide,
    unknown_font_warns_but_not_substituted.1 sampleEnv.fontPaths (S "NoFont") (by decide)⟩

/-! ## C9 — encoder failure aborts before publish and cleanup -/

/-- Caption materialization only ever fetches and writes. -/
theorem materialize_caption_trace (env : Env) (cs : Str) (opts : Options)
    (owm : Bool) (ct style path : Str) :
    ∀ a ∈ (materialize_caption env cs opts owm ct style path).2,
      (∃ u, a = .fetchCaption u) ∨ ∃ p c, a = .writeFile p c := by
  intro a ha
  unfold materialize_caption at ha
  split at ha
  · split at ha
    · simp at ha
      exact Or.inl ⟨cs, ha⟩
    · split at ha
      · split at ha
        · simp at ha
          exact Or.inl ⟨cs, ha⟩
        · simp at ha
          rcases ha with rfl | rfl
          · exact Or.inl ⟨cs, rfl⟩
          · exact Or.inr ⟨_, _, rfl⟩
      · split at ha
        · simp at ha
          rcases ha with rfl | rfl
          · exact Or.inl ⟨cs, rfl⟩
          · exact Or.inr ⟨_, _, rfl⟩
        · simp at ha
          rcases ha with rfl | rfl
          · exact Or.inl ⟨cs, rfl⟩
          · exact Or.inr ⟨_, _, rfl⟩
  · split at ha
    · split at ha
      · simp at ha
      · simp at ha
        exact Or.inr ⟨_, _, ha⟩
    · simp at ha
      exact Or.inr ⟨_, _, ha⟩

/-- C9: when the encoder fails, the pipeline fails carrying the diagnostic
text decoded from the encoder's stderr (or the fixed fallback text), and the
trace contains neither an upload nor a file removal — publish and cleanup are
never attempted. -/
theorem encoder_failure_aborts (env : Env)
    (file_url caption_srt caption_type : Str)
    (options_arr : List (Str × PyVal)) (job_id : Str)
    (video_path : Str) (stderr : Option Str) (tr : List Action)
    (hdl : env.downloadResult = .ok video_path)
    (henc : env.encodeResult = .error stderr)
    (hmat : materialize_caption env caption_srt
        (convert_array_to_collection options_arr)
        (oneWordMode (convert_array_to_collection options_arr))
        (effCaptionType (convert_array_to_collection options_arr) caption_type)
        (jobCaptionStyle (convert_array_to_collection options_arr) caption_type)
        (jobSrtPath (convert_array_to_collection options_arr) caption_type job_id)
        = (.ok (), tr)) :
    (process_captioning env file_url caption_srt caption_type options_arr job_id).1
        = .error (.ffmpegError (decodeStderr stderr)) ∧
    ∀ a ∈ (process_captioning env file_url caption_srt caption_type options_arr
        job_id).2,
      (∀ p, a ≠ .upload p) ∧ ∀ p, a ≠ .removeFile p := by
  have hproc : process_captioning env file_url caption_srt caption_type options_arr
      job_id
      = (.error (.ffmpegError (decodeStderr stderr)),
         .download file_url ::
           tr ++
             (if (select_font env.fontPaths
                  (jobFontName (convert_array_to_collection options_arr))).2 then
               [Action.warnFont (jobFontName (convert_array_to_collection options_arr))]
             else []) ++
             [.encode (build_subtitle_filter
               (effExtension (convert_array_to_collection options_arr) caption_type)
               (jobSrtPath (convert_array_to_collection options_arr) caption_type job_id)
               (convert_array_to_collection options_arr)
               (jobFontName (convert_array_to_collection options_arr)))]) := by
    unfold process_captioning
    rw [hdl]
    simp only []
    rw [hmat, henc]
  rw [hproc]
  refine ⟨rfl, ?_⟩
  intro a ha
  simp only [List.mem_cons, List.mem_append, List.mem_singleton, List.not_mem_nil,
    or_false] at ha
  rcases ha with ((rfl | hatr) | hafont) | rfl
  · exact ⟨fun p => by simp, fun p => by simp⟩
  · rcases materialize_caption_trace env caption_srt _ _ _ _ _ a
        (by rw [congrArg Prod.snd hmat]; exact hatr) with
      ⟨u, rfl⟩ | ⟨p, c, rfl⟩
    · exact ⟨fun q => by simp, fun q => by simp⟩
    · exact ⟨fun q => by simp, fun q => by simp⟩
  · split at hafont <;> simp at hafont
    subst hafont
    exact ⟨fun q => by simp, fun q => by simp⟩
  · exact ⟨fun q => by simp, fun q => by simp⟩

/-- C9 witness: inline caption, plain `srt` type, failing encoder. -/
theorem encoder_failure_aborts_witness :
    encoderFailEnv.downloadResult = .ok (S "/tmp/video.mp4") ∧
    encoderFailEnv.encodeResult = .error (some (S "boom: encoder exploded")) ∧
    materialize_caption encoderFailEnv (S "hi there") (convert_array_to_collection [])
        (oneWordMode (convert_array_to_collection []))
        (effCaptionType (convert_array_to_collection []) (S "srt"))
        (jobCaptionStyle (convert_array_to_collection []) (S "srt"))
        (jobSrtPath (convert_array_to_collection []) (S "srt") (S "job1"))
        = (.ok (), [.writeFile (jobSrtPath (convert_array_to_collection [])
            (S "srt") (S "job1")) (S "hi there")]) ∧
    ((process_captioning encoderFailEnv (S "http://v/v.mp4") (S "hi there")
        (S "srt") [] (S "job1")).1
        = .error (.ffmpegError (decodeStderr (some (S "boom: encoder exploded")))) ∧
      ∀ a ∈ (process_captioning encoderFailEnv (S "http://v/v.mp4") (S "hi there")
          (S "srt") [] (S "job1")).2,
        (∀ p, a ≠ .upload p) ∧ ∀ p, a ≠ .removeFile p) :=
  ⟨rfl, rfl, by decide,
    encoder_failure_aborts encoderFailEnv (S "http://v/v.mp4") (S "hi there")
      (S "srt") [] (S "job1") (S "/tmp/video.mp4")
      (some (S "boom: encoder exploded"))
      [.writeFile (jobSrtPath (convert_array_to_collection []) (S "srt") (S "job1"))
        (S "hi there")]
      rfl rfl (by decide)⟩

/-! ## C10 — a caption source is remote iff it starts with `"https"` -/

/-- Materialization fetches iff the source starts with `"https"`; a
non-`https` source in plain mode is written inline with no fetch. -/
theorem materialize_caption_fetch (env : Env) (cs : Str) (opts : Options)
    (owm : Bool) (ct style path : Str) :
    ((∃ u, Action.fetchCaption u
        ∈ (materialize_caption env cs opts owm ct style path).2)
      ↔ pyStartsWith cs (S "https") = true) ∧
    (pyStartsWith cs (S "https") = false → owm = false →
      materialize_caption env cs opts owm ct style path
        = (.ok (), [.writeFile path (style ++ cs)])) := by
  have hpos : pyStartsWith cs (S "https") = true →
      Action.fetchCaption cs
        ∈ (materialize_caption env cs opts owm ct style path).2 := by
    intro h
    rcases hres : materialize_caption env cs opts owm ct style path with ⟨r, tr2⟩
    show Action.fetchCaption cs ∈ tr2
    unfold materialize_caption at hres
    rw [if_pos h] at hres
    split at hres
    · cases hres
      simp
    · split at hres
      · split at hres
        · cases hres
          simp
        · cases hres
          simp
      · split at hres
        · cases hres
          simp
        · cases hres
          simp
  have hneg : pyStartsWith cs (S "https") = false →
      ∀ u, Action.fetchCaption u
        ∉ (materialize_caption env cs opts owm ct style path).2 := by
    intro h u hu
    unfold materialize_caption at hu
    rw [if_neg (by simp [h])] at hu
    split at hu
    · split at hu
      · simp at hu
      · simp at hu
    · simp at hu
  refine ⟨⟨?_, fun h => ⟨cs, hpos h⟩⟩, ?_⟩
  · rintro ⟨u, hu⟩
    by_contra hns
    exact hneg (Bool.eq_false_iff.mpr hns) u hu
  · intro hf howmf
    unfold materialize_caption
    rw [if_neg (by simp [hf]), if_neg (by simp [howmf])]

/-- After a successful download, the pipeline trace is the download, then the
materialization trace, then steps that neither fetch nor write. -/
theorem process_captioning_rest (env : Env)
    (file_url caption_srt caption_type : Str)
    (options_arr : List (Str × PyVal)) (job_id video_path : Str)
    (hdl : env.downloadResult = .ok video_path) :
    ∃ rest,
      (process_captioning env file_url caption_srt caption_type options_arr
          job_id).2
        = .download file_url ::
            (materialize_caption env caption_srt
              (convert_array_to_collection options_arr)
              (oneWordMode (convert_array_to_collection options_arr))
              (effCaptionType (convert_array_to_collection options_arr) caption_type)
              (jobCaptionStyle (convert_array_to_collection options_arr) caption_type)
              (jobSrtPath (convert_array_to_collection options_arr) caption_type
                job_id)).2 ++ rest ∧
      ∀ a ∈ rest, (∀ u, a ≠ .fetchCaption u) ∧ ∀ p c, a ≠ .writeFile p c := by
  unfold process_captioning
  rw [hdl]
  simp only []
  rcases hm : materialize_caption env caption_srt
      (convert_array_to_collection options_arr)
      (oneWordMode (convert_array_to_collection options_arr))
      (effCaptionType (convert_array_to_collection options_arr) caption_type)
      (jobCaptionStyle (convert_array_to_collection options_arr) caption_type)
      (jobSrtPath (convert_array_to_collection options_arr) caption_type job_id)
    with ⟨res, mtr⟩
  cases res with
  | error e =>
    refine ⟨[], by simp, by simp⟩
  | ok u =>
    simp only []
    have hnofw : ∀ a ∈ (if (select_font env.fontPaths
          (jobFontName (convert_array_to_collection options_arr))).2 = true then
        [Action.warnFont (jobFontName (convert_array_to_collection options_arr))]
      else []) ++
        [Action.encode (build_subtitle_filter
          (effExtension (convert_array_to_collection options_arr) caption_type)
          (jobSrtPath (convert_array_to_collection options_arr) caption_type job_id)
          (convert_array_to_collection options_arr)
          (jobFontName (convert_array_to_collection options_arr)))],
        (∀ u, a ≠ .fetchCaption u) ∧ ∀ p c, a ≠ .writeFile p c := by
      intro a ha
      simp only [List.mem_append, List.mem_singleton] at ha
      rcases ha with hf | rfl
      · split at hf
        · simp only [List.mem_singleton] at hf
          subst hf
          exact ⟨fun u => by simp, fun p c => by simp⟩
        · simp at hf
      · exact ⟨fun u => by simp, fun p c => by simp⟩
    cases henc : env.encodeResult with
    | error stderr =>
      refine ⟨_, by simp [List.append_assoc], hnofw⟩
    | ok _ =>
      cases hup : env.uploadResult with
      | error m =>
        refine ⟨((if (select_font env.fontPaths
              (jobFontName (convert_array_to_collection options_arr))).2 = true then
            [Action.warnFont (jobFontName (convert_array_to_collection options_arr))]
          else []) ++
          [Action.encode (build_subtitle_filter
            (effExtension (convert_array_to_collection options_arr) caption_type)
            (jobSrtPath (convert_array_to_collection options_arr) caption_type job_id)
            (convert_array_to_collection options_arr)
            (jobFontName (convert_array_to_collection options_arr)))]) ++
            [Action.upload (S "/tmp/" ++ job_id ++ S "_captioned.mp4")],
          by simp [List.append_assoc], ?_⟩
        intro a ha
        rcases List.mem_append.mp ha with hf | hup2
        · exact hnofw a hf
        · simp only [List.mem_singleton] at hup2
          subst hup2
          exact ⟨fun u => by simp, fun p c => by simp⟩
      | ok artifact =>
        refine ⟨((if (select_font env.fontPaths
              (jobFontName (convert_array_to_collection options_arr))).2 = true then
            [Action.warnFont (jobFontName (convert_array_to_collection options_arr))]
          else []) ++
          [Action.encode (build_subtitle_filter
            (effExtension (convert_array_to_collection options_arr) caption_type)
            (jobSrtPath (convert_array_to_collection options_arr) caption_type job_id)
            (convert_array_to_collection options_arr)
            (jobFontName (convert_array_to_collection options_arr)))]) ++
            [Action.upload (S "/tmp/" ++ job_id ++ S "_captioned.mp4"),
            Action.removeFile video_path,
            Action.removeFile (jobSrtPath (convert_array_to_collection options_arr)
              caption_type job_id),
            Action.removeFile (S "/tmp/" ++ job_id ++ S "_captioned.mp4")],
          by simp [List.append_assoc], ?_⟩
        intro a ha
        rcases List.mem_append.mp ha with hf | hrest
        · exact hnofw a hf
        · simp only [List.mem_cons, List.mem_singleton, List.not_mem_nil,
            or_false] at hrest
          rcases hrest with rfl | rfl | rfl | rfl
          · exact ⟨fun u => by simp, fun p c => by simp⟩
          · exact ⟨fun u => by simp, fun p c => by simp⟩
          · exact ⟨fun u => by simp, fun p c => by simp⟩
          · exact ⟨fun u => by simp, fun p c => by simp⟩

/-- C10: the pipeline treats the caption source as remote — performs a
caption fetch — exactly when the source string starts with the literal
prefix `"https"`; any other source (whatever its scheme) is treated as
inline text, and in plain mode it is written to the subtitle scratch file
(prefixed by the style header, empty for plain dialects) without any
fetch. -/
theorem caption_remote_iff_https (env : Env)
    (file_url caption_srt caption_type : Str)
    (options_arr : List (Str × PyVal)) (job_id video_path : Str)
    (hdl : env.downloadResult = .ok video_path) :
    ((∃ u, Action.fetchCaption u
        ∈ (process_captioning env file_url caption_srt caption_type options_arr
            job_id).2)
      ↔ pyStartsWith caption_srt (S "https") = true) ∧
    (pyStartsWith caption_srt (S "https") = false →
      oneWordMode (convert_array_to_collection options_arr) = false →
      Action.writeFile
          (jobSrtPath (convert_array_to_collection options_arr) caption_type job_id)
          (jobCaptionStyle (convert_array_to_collection options_arr) caption_type
            ++ caption_srt)
        ∈ (process_captioning env file_url caption_srt caption_type options_arr
            job_id).2) := by
  obtain ⟨rest, htr, hrest⟩ := process_captioning_rest env file_url caption_srt
    caption_type options_arr job_id video_path hdl
  obtain ⟨hfetch_iff, hinline⟩ := materialize_caption_fetch env caption_srt
    (convert_array_to_collection options_arr)
    (oneWordMode (convert_array_to_collection options_arr))
    (effCaptionType (convert_array_to_collection options_arr) caption_type)
    (jobCaptionStyle (convert_array_to_collection options_arr) caption_type)
    (jobSrtPath (convert_array_to_collection options_arr) caption_type job_id)
  constructor
  · constructor
    · rintro ⟨u, hu⟩
      rw [htr] at hu
      rcases List.mem_cons.mp hu with hdl2 | hu2
      · exact absurd hdl2 (by simp)
      · rcases List.mem_append.mp hu2 with hu3 | hu4
        · exact hfetch_iff.mp ⟨u, hu3⟩
        · exact absurd rfl ((hrest _ hu4).1 u)
    · intro h
      obtain ⟨u, hu⟩ := hfetch_iff.mpr h
      exact ⟨u, by
        rw [htr]
        exact List.mem_cons_of_mem _ (List.mem_append_left _ hu)⟩
  · intro hf howmf
    have hmat := hinline hf howmf
    rw [htr]
    refine List.mem_cons_of_mem _ (List.mem_append_left _ ?_)
    rw [congrArg Prod.snd hmat]
    simp

/-- C10 witness: an `http://` (not `https`) source is inline — written, not
fetched; over the same environment an `https` source is fetched. -/
theorem caption_remote_iff_https_witness :
    sampleEnv.downloadResult = .ok (S "/tmp/video.mp4") ∧
    pyStartsWith (S "http://example.com/c.srt") (S "https") = false ∧
    oneWordMode (convert_array_to_collection []) = false ∧
    ¬ (∃ u, Action.fetchCaption u
        ∈ (process_captioning sampleEnv (S "http://v/v.mp4")
            (S "http://example.com/c.srt") (S "srt") [] (S "job1")).2) ∧
    Action.writeFile (jobSrtPath (convert_array_to_collection []) (S "srt") (S "job1"))
        (jobCaptionStyle (convert_array_to_collection []) (S "srt")
          ++ S "http://example.com/c.srt")
      ∈ (process_captioning sampleEnv (S "http://v/v.mp4")
          (S "http://example.com/c.srt") (S "srt") [] (S "job1")).2 := by
  have h := caption_remote_iff_https sampleEnv (S "http://v/v.mp4")
    (S "http://example.com/c.srt") (S "srt") [] (S "job1") (S "/tmp/video.mp4") rfl
  refine ⟨rfl, by decide, by decide, ?_, h.2 (by decide) (by decide)⟩
  intro hex
  have := h.1.mp hex
  exact absurd this (by decide)

end CaptionVideoOne
